import Mathlib

/-!
Verification of the review-orchestration core of the code-review assistant
backend.  The TypeScript services are shallowly embedded as Lean functions:

* `filterIssuesBySeverity`, `filterFiles`, `detectLanguage`, `analyzeCode`
  from `backend/src/services/ai.service.ts`;
* `getSettings` (the four-tier cascade) from `settings.service.ts`;
* the `cache` helper (Redis primary with in-memory fallback) from
  `config/redis.ts`;
* `verifyWebhookSignature` and the `/github` webhook route from
  `routes/webhooks.ts`;
* `createAndRunReview` (duplicate suppression) and `processReview`
  (the review state machine and its transactional commit) from
  `review.service.ts`.

Fallible I/O is modelled with explicit outcome oracles (`Bool` / `Option` /
`Except` fields of an environment record): a `false` / `.error` oracle value
means that the corresponding database or network call threw.  JavaScript
`Array.prototype.indexOf` is modelled by `jsIndexOf` (returning `-1` when the
element is absent), JS object spread by option-typed blobs and `applyBlob`,
and the node `timingSafeEqual` primitive by an `Except` that errors when the
two buffers have different byte lengths, exactly as the library call throws.
-/

namespace CodeReviewAssistant

/-! ### Severity filtering (ai.service.ts, filterIssuesBySeverity) -/

/-- One finding as parsed from the AI response (`AnalyzedIssue` in
`types/index.ts`).  `severity` and `category` are plain strings because the
value arrives from `JSON.parse` without runtime validation. -/
structure AnalyzedIssue where
  filePath : String
  lineStart : Nat
  lineEnd : Option Nat
  severity : String
  category : String
  title : String
  description : String
  suggestion : Option String
  codeSnippet : Option String
deriving DecidableEq, Repr

/-- JavaScript `Array.prototype.indexOf`: first index of `x`, or `-1`. -/
def jsIndexOf (xs : List String) (x : String) : Int :=
  match xs.findIdx? (fun y => y == x) with
  | some i => (i : Int)
  | none => -1

/-- The fixed severity order used by `filterIssuesBySeverity`. -/
def severityOrder : List String := ["critical", "warning", "info"]

/-- `filterIssuesBySeverity` from ai.service.ts lines 241-252: keeps the
issues whose `indexOf` in the severity order is `<=` the threshold's. -/
def filterIssuesBySeverity (issues : List AnalyzedIssue) (threshold : String) :
    List AnalyzedIssue :=
  let thresholdIndex := jsIndexOf severityOrder threshold
  issues.filter (fun issue =>
    decide (jsIndexOf severityOrder issue.severity ≤ thresholdIndex))

/-- Spec-side notion of "severity `s` is at or above threshold `t` in the
fixed total order critical > warning > info"; `false` whenever `s` is not a
recognized severity. -/
def atOrAboveThreshold (s t : String) : Bool :=
  match severityOrder.findIdx? (fun y => y == s),
        severityOrder.findIdx? (fun y => y == t) with
  | some i, some j => decide (i ≤ j)
  | _, _ => false

/-! ### Settings cascade (settings.service.ts) -/

/-- Per-language settings (`LanguageSettings` in `types/index.ts`). -/
structure LanguageSettings where
  enabled : Bool
  lintingEnabled : Bool
  maxFileSize : Nat
  excludePatterns : List String
deriving DecidableEq, Repr

/-- A custom rule (`CustomRule` in `types/index.ts`). -/
structure CustomRule where
  id : String
  name : String
  pattern : String
  message : String
  severity : String
deriving DecidableEq, Repr

/-- The effective review settings (`ReviewSettings` in `types/index.ts`).
The `languageSettings` record is modelled as an association list. -/
structure ReviewSettings where
  enabledCategories : List String
  severityThreshold : String
  ignoredFiles : List String
  ignoredPatterns : List String
  customRules : List CustomRule
  languageSettings : List (String × LanguageSettings)
deriving DecidableEq, Repr

/-- `DEFAULT_REVIEW_SETTINGS` from settings.service.ts. -/
def DEFAULT_REVIEW_SETTINGS : ReviewSettings :=
  { enabledCategories := ["security", "performance", "style", "bug", "best_practice"]
    severityThreshold := "info"
    ignoredFiles :=
      ["package-lock.json", "yarn.lock", "pnpm-lock.yaml", "*.min.js",
       "*.min.css", "*.map", "dist/*", "build/*", "node_modules/*"]
    ignoredPatterns := ["\\.test\\.", "\\.spec\\.", "__tests__", "__mocks__"]
    customRules := []
    languageSettings :=
      [("javascript", ⟨true, true, 100000, []⟩),
       ("typescript", ⟨true, true, 100000, []⟩),
       ("python", ⟨true, true, 100000, []⟩),
       ("java", ⟨true, true, 150000, []⟩)] }

/-- A stored settings blob: `Partial<ReviewSettings>`, one option per key.
A `none` field is a key absent from the JSON blob; a `some` field is present
and fully replaces the prior value on merge (JS object spread). -/
structure SettingsBlob where
  enabledCategories : Option (List String) := none
  severityThreshold : Option String := none
  ignoredFiles : Option (List String) := none
  ignoredPatterns : Option (List String) := none
  customRules : Option (List CustomRule) := none
  languageSettings : Option (List (String × LanguageSettings)) := none
deriving DecidableEq, Repr

/-- JS spread `\x7b ...settings, ...blob \x7d`: every key present in the blob
replaces the prior value, absent keys keep it. -/
def applyBlob (s : ReviewSettings) (b : SettingsBlob) : ReviewSettings :=
  { enabledCategories := b.enabledCategories.getD s.enabledCategories
    severityThreshold := b.severityThreshold.getD s.severityThreshold
    ignoredFiles := b.ignoredFiles.getD s.ignoredFiles
    ignoredPatterns := b.ignoredPatterns.getD s.ignoredPatterns
    customRules := b.customRules.getD s.customRules
    languageSettings := b.languageSettings.getD s.languageSettings }

/-- The settings table: at most one row per (user scope, repository scope,
key), per the `UNIQUE(user_id, repository_id, setting_key)` constraint, so the
store is a function from the scope tuple and key to an optional blob. -/
def SettingsStore : Type :=
  Option String → Option String → String → Option SettingsBlob

/-- `getSetting` from settings.service.ts: looks up the row for the exact
scope tuple; both scopes absent yields `null`. -/
def getSetting (store : SettingsStore) (userId repositoryId : Option String)
    (key : String) : Option SettingsBlob :=
  match userId, repositoryId with
  | none, none => none
  | _, _ => store userId repositoryId key

/-- `getSettings` from settings.service.ts lines 182-219: defaults, then the
user blob, then (when a repository is given) the repository blob, then the
user+repository blob, each shallow-merged over the previous result. -/
def getSettings (store : SettingsStore) (userId : String)
    (repositoryId : Option String) : ReviewSettings :=
  let settings := DEFAULT_REVIEW_SETTINGS
  let settings :=
    match getSetting store (some userId) none "review" with
    | some blob => applyBlob settings blob
    | none => settings
  match repositoryId with
  | none => settings
  | some repoId =>
    let settings :=
      match getSetting store none (some repoId) "review" with
      | some blob => applyBlob settings blob
      | none => settings
    match getSetting store (some userId) (some repoId) "review" with
    | some blob => applyBlob settings blob
    | none => settings

/-- Spec-side resolution: the present layers, in increasing precedence. -/
def settingsLayers (store : SettingsStore) (userId : String)
    (repositoryId : Option String) : List SettingsBlob :=
  (getSetting store (some userId) none "review").toList ++
    match repositoryId with
    | none => []
    | some repoId =>
      (getSetting store none (some repoId) "review").toList ++
        (getSetting store (some userId) (some repoId) "review").toList

/-- Spec-side resolution: fold the present layers over the defaults. -/
def cascadeResolve (store : SettingsStore) (userId : String)
    (repositoryId : Option String) : ReviewSettings :=
  (settingsLayers store userId repositoryId).foldl applyBlob
    DEFAULT_REVIEW_SETTINGS

/-! ### Cache layer (config/redis.ts) -/

/-- Outcome of one call against the Redis backend: either the backend's
answer or a thrown backend error. -/
inductive BackendResult (α : Type) where
  | ok (a : α)
  | err
deriving DecidableEq, Repr

/-- One in-memory fallback entry: serialized value plus optional absolute
expiry time in milliseconds (`none` when no TTL was given). -/
structure MemEntry where
  value : String
  expiry : Option Nat
deriving DecidableEq, Repr

/-- State of the cache component: the `redisEnabled` flag, the Redis store
contents (an association list; its per-key TTL bookkeeping is internal to
Redis and not modelled), and the `memoryCache` map.  Values are kept in their
serialized form, so the `JSON.stringify` / `JSON.parse` round trip is the
identity. -/
structure CacheState where
  redisEnabled : Bool
  redis : List (String × String)
  memoryCache : List (String × MemEntry)
deriving DecidableEq, Repr

/-- Association-list overwrite (`Map.set` / Redis `SET`). -/
def assocSet {α : Type} (m : List (String × α)) (k : String) (v : α) :
    List (String × α) :=
  (m.filter (fun kv => kv.1 ≠ k)) ++ [(k, v)]

/-- Association-list delete (`Map.delete`). -/
def assocDel {α : Type} (m : List (String × α)) (k : String) :
    List (String × α) :=
  m.filter (fun kv => kv.1 ≠ k)

/-- Association-list lookup (`Map.get`). -/
def assocGet {α : Type} (m : List (String × α)) (k : String) : Option α :=
  (m.find? (fun kv => kv.1 = k)).map (·.2)

/-- `cache.get` from config/redis.ts: with Redis enabled, delegate to the
backend and treat a thrown backend error as a miss (the surrounding
`try/catch` returns `null`); otherwise read the memory fallback, deleting and
missing an expired entry.  `now` is `Date.now()` at call time. -/
def cacheGet (st : CacheState) (key : String) (now : Nat)
    (redisResp : BackendResult (Option String)) : Option String × CacheState :=
  if st.redisEnabled then
    match redisResp with
    | .err => (none, st)
    | .ok none => (none, st)
    | .ok (some data) => (some data, st)
  else
    match assocGet st.memoryCache key with
    | none => (none, st)
    | some entry =>
      match entry.expiry with
      | some e =>
        if e < now then
          (none, { st with memoryCache := assocDel st.memoryCache key })
        else (some entry.value, st)
      | none => (some entry.value, st)

/-- `cache.set` from config/redis.ts: with Redis enabled, write through and
swallow a thrown backend error (state unchanged); otherwise store in the
memory fallback with expiry `now + ttl * 1000` when a TTL is given. -/
def cacheSet (st : CacheState) (key value : String) (ttlSeconds : Option Nat)
    (now : Nat) (redisResp : BackendResult Unit) : CacheState :=
  if st.redisEnabled then
    match redisResp with
    | .err => st
    | .ok _ => { st with redis := assocSet st.redis key value }
  else
    let entry : MemEntry := ⟨value, ttlSeconds.map (fun t => now + t * 1000)⟩
    { st with memoryCache := assocSet st.memoryCache key entry }

/-- The periodic `setInterval` sweep from config/redis.ts: deletes every
memory entry whose expiry is set and strictly in the past. -/
def cacheSweep (st : CacheState) (now : Nat) : CacheState :=
  { st with memoryCache :=
      st.memoryCache.filter (fun kv =>
        match kv.2.expiry with
        | some e => decide (¬ e < now)
        | none => true) }

/-! ### Webhook intake (routes/webhooks.ts) -/

/-- Result of `verifyWebhookSignature`, given the hex HMAC-SHA256 function
as a parameter.  A JS-falsy secret or signature (absent or empty) returns
`false`; otherwise `crypto.timingSafeEqual` compares the two buffers and,
exactly like the node primitive, throws (`Except.error`) when they differ in
byte length. -/
def verifyWebhookSignature (hmacHex : String → String → String)
    (secret : Option String) (payload : String) (signature : Option String) :
    Except Unit Bool :=
  match secret, signature with
  | none, _ => .ok false
  | _, none => .ok false
  | some sec, some sig =>
    if sec = "" then .ok false
    else if sig = "" then .ok false
    else
      let digest := "sha256=" ++ hmacHex sec payload
      if digest.utf8ByteSize = sig.utf8ByteSize then .ok (decide (digest = sig))
      else .error ()

/-- The repository row fields read by the webhook handler. -/
structure WebhookRepo where
  id : String
  userId : String
  autoReview : Bool
deriving DecidableEq, Repr

/-- The parsed pieces of an inbound delivery used by the `/github` route. -/
structure WebhookDelivery where
  event : String
  action : String
  prNumber : Nat
  repoFullName : String
  githubRepoId : String
deriving DecidableEq, Repr

/-- HTTP outcome of the `/github` route: 200 success, the 401 `AppError`
raised on a failed verification, or the 500 the `errorHandler` middleware
produces for any non-`AppError` exception (such as the `timingSafeEqual`
length error). -/
inductive WebhookResponse where
  | success
  | authError
  | internalError
deriving DecidableEq, Repr

/-- Observable effects of one `/github` delivery. -/
structure WebhookEffects where
  response : WebhookResponse
  eventStored : Bool
  reviewTriggered : Bool
deriving DecidableEq, Repr

/-- `handlePullRequestEvent` from routes/webhooks.ts lines 98-155: gate on
the action, then on the repository lookup, then on its auto-review flag; only
past all three gates is the `webhook_events` row inserted and the review
triggered.  Returns (event stored, review triggered). -/
def handlePullRequestEvent (d : WebhookDelivery)
    (repoLookup : Option WebhookRepo) : Bool × Bool :=
  if ¬ (["opened", "synchronize", "reopened"].contains d.action) then
    (false, false)
  else
    match repoLookup with
    | none => (false, false)
    | some repo =>
      if ¬ repo.autoReview then (false, false)
      else (true, true)

/-- The `/github` route handler from routes/webhooks.ts lines 43-75:
verify the signature first; a `false` verification raises the 401 `AppError`
and a thrown comparison error reaches the error middleware as a 500, in both
cases before any event handling; on success, only `pull_request` events are
handled and everything else (including `ping`) is acknowledged untouched. -/
def webhookGithubPost (hmacHex : String → String → String)
    (secret : Option String) (payload : String) (signature : Option String)
    (d : WebhookDelivery) (repoLookup : Option WebhookRepo) : WebhookEffects :=
  match verifyWebhookSignature hmacHex secret payload signature with
  | .error _ => ⟨.internalError, false, false⟩
  | .ok false => ⟨.authError, false, false⟩
  | .ok true =>
    if d.event = "pull_request" then
      let (stored, triggered) := handlePullRequestEvent d repoLookup
      ⟨.success, stored, triggered⟩
    else ⟨.success, false, false⟩

/-! ### Duplicate suppression in createAndRunReview (review.service.ts) -/

/-- The review-table columns involved in duplicate suppression. -/
structure ReviewRec where
  id : Nat
  repositoryId : String
  prNumber : Nat
  headSha : String
deriving DecidableEq, Repr

/-- The `SELECT` of createAndRunReview lines 200-204: first row matching the
(repository, PR number, head SHA) triple. -/
def findExisting (db : List ReviewRec) (repo : String) (pr : Nat)
    (sha : String) : Option ReviewRec :=
  db.find? (fun row =>
    row.repositoryId == repo && row.prNumber == pr && row.headSha == sha)

/-- The `INSERT` of createAndRunReview lines 211-227, as executed by the
store: the schema's `UNIQUE(repository_id, pr_number, head_sha)` constraint
rejects the insert (the query throws) when a row with the same triple already
exists. -/
def insertUnique (db : List ReviewRec) (row : ReviewRec) :
    Except Unit (List ReviewRec) :=
  if (findExisting db row.repositoryId row.prNumber row.headSha).isSome then
    .error ()
  else .ok (db ++ [row])

/-- Progress of one `createAndRunReview` invocation: before its `SELECT`,
between `SELECT` (which found nothing) and `INSERT`, or finished with either
the returned review row or the thrown unique-violation error. -/
inductive CallState where
  | ready
  | selected
  | finished (result : Except Unit ReviewRec)
deriving Repr

/-- One database step of a `createAndRunReview` invocation for the triple
(`repo`, `pr`, `sha`), inserting with the fresh id `freshId` when the
preceding `SELECT` found nothing.  A finished call does not move. -/
def callStep (db : List ReviewRec) (c : CallState) (repo : String)
    (pr : Nat) (sha : String) (freshId : Nat) :
    List ReviewRec × CallState :=
  match c with
  | .ready =>
    match findExisting db repo pr sha with
    | some row => (db, .finished (.ok row))
    | none => (db, .selected)
  | .selected =>
    let row : ReviewRec := ⟨freshId, repo, pr, sha⟩
    match insertUnique db row with
    | .ok db2 => (db2, .finished (.ok row))
    | .error _ => (db, .finished (.error ()))
  | .finished r => (db, .finished r)

/-- Joint state of the table and two concurrent invocations A and B. -/
structure RaceState where
  db : List ReviewRec
  a : CallState
  b : CallState
deriving Repr

/-- One scheduler move: `true` steps invocation A, `false` steps B.  Both
invocations carry the same triple (same webhook delivered twice); each uses
its own fresh id. -/
def raceStep (repo : String) (pr : Nat) (sha : String) (idA idB : Nat)
    (st : RaceState) (move : Bool) : RaceState :=
  if move then
    let (db2, a2) := callStep st.db st.a repo pr sha idA
    { st with db := db2, a := a2 }
  else
    let (db2, b2) := callStep st.db st.b repo pr sha idB
    { st with db := db2, b := b2 }

/-- Run a whole interleaving of the two invocations. -/
def runSchedule (repo : String) (pr : Nat) (sha : String) (idA idB : Nat)
    (moves : List Bool) (st : RaceState) : RaceState :=
  moves.foldl (raceStep repo pr sha idA idB) st

/-- Number of persisted review rows for one (repository, PR, SHA) triple. -/
def countMatching (db : List ReviewRec) (repo : String) (pr : Nat)
    (sha : String) : Nat :=
  (db.filter (fun row =>
    row.repositoryId == repo && row.prNumber == pr && row.headSha == sha)).length

/-! ### File filtering and analysis (ai.service.ts) -/

/-- `LANGUAGE_MAP` from ai.service.ts. -/
def LANGUAGE_MAP : List (String × String) :=
  [(".js", "javascript"), (".jsx", "javascript"), (".ts", "typescript"),
   (".tsx", "typescript"), (".py", "python"), (".java", "java"),
   (".go", "go"), (".rs", "rust"), (".rb", "ruby"), (".php", "php"),
   (".cs", "csharp"), (".cpp", "cpp"), (".c", "c"), (".swift", "swift"),
   (".kt", "kotlin"), (".scala", "scala")]

/-- `detectLanguage` from ai.service.ts lines 38-41:
`filename.substring(filename.lastIndexOf('.'))` looked up in the map, with
`'unknown'` as the default; when the name has no dot, `lastIndexOf` is `-1`
and `substring(-1)` is the whole name. -/
def detectLanguage (filename : String) : String :=
  let ext :=
    if filename.data.contains '.' then
      String.mk ('.' :: (filename.data.reverse.takeWhile (fun c => c ≠ '.')).reverse)
    else filename
  (assocGet LANGUAGE_MAP ext).getD "unknown"

/-- One changed file as returned by `getPullRequestFiles`. -/
structure PRFile where
  filename : String
  status : String
  patch : Option String
deriving DecidableEq, Repr

/-- One file prepared for analysis (`FileAnalysis` in `types/index.ts`). -/
structure FileAnalysis where
  filename : String
  patch : String
  language : String
deriving DecidableEq, Repr

/-- `filterFiles` from ai.service.ts lines 206-238, parameterized by the JS
regular-expression test (`regexTest pattern name` models
`new RegExp(pattern).test(name)`).  A file is dropped when it is in the
ignored-file list, matches an ignored pattern, has its language disabled, or
its patch exceeds the per-language maximum size (default 100000). -/
def filterFiles (regexTest : String → String → Bool)
    (files : List FileAnalysis) (settings : ReviewSettings) :
    List FileAnalysis :=
  files.filter (fun file =>
    if settings.ignoredFiles.contains file.filename then false
    else if settings.ignoredPatterns.any (fun p => regexTest p file.filename)
    then false
    else
      let langSettings := assocGet settings.languageSettings file.language
      if (match langSettings with
          | some ls => !ls.enabled
          | none => false) then false
      else
        let patchSize := file.patch.utf8ByteSize
        let maxSize := (langSettings.map (fun ls => ls.maxFileSize)).getD 100000
        decide (patchSize ≤ maxSize))

/-- Analysis metrics (`AnalysisResult.metrics` in `types/index.ts`). -/
structure AnalysisMetrics where
  filesAnalyzed : Nat
  linesAnalyzed : Nat
  processingTimeMs : Nat
deriving DecidableEq, Repr

/-- `AnalysisResult` from `types/index.ts`. -/
structure AnalysisResult where
  summary : String
  issues : List AnalyzedIssue
  metrics : AnalysisMetrics
deriving DecidableEq, Repr

/-- Environment of one `analyzeCode` call: the cache lookup outcome (already
`null` on any cache error, per `cache.get`) and the AI call outcome —
`.error` when the API call or content extraction threw, otherwise the
(summary, issues) pair that `parseAnalysisResponse` always produces. -/
structure AIEnv where
  cached : Option AnalysisResult
  aiOutcome : Except Unit (String × List AnalyzedIssue)
deriving Repr

/-- `analyzeCode` from ai.service.ts lines 121-203.  Returns the result
paired with whether the AI API was actually called; throws (`Except.error`,
becoming `AppError('Failed to analyze code')`) only when the AI call itself
failed.  With zero files after filtering it returns the fixed empty result
before consulting the cache or the AI. -/
def analyzeCode (regexTest : String → String → Bool) (env : AIEnv)
    (files : List FileAnalysis) (settings : ReviewSettings) :
    Except Unit (AnalysisResult × Bool) :=
  let filteredFiles := filterFiles regexTest files settings
  if filteredFiles.isEmpty then
    .ok ({ summary := "No files to analyze after applying filters"
           issues := []
           metrics := ⟨0, 0, 0⟩ }, false)
  else
    match env.cached with
    | some cached => .ok (cached, false)
    | none =>
      match env.aiOutcome with
      | .error _ => .error ()
      | .ok (summary, issues) =>
        let linesAnalyzed :=
          filteredFiles.foldl (fun acc f => acc + (f.patch.splitOn "\n").length) 0
        .ok ({ summary := summary
               issues := filterIssuesBySeverity issues settings.severityThreshold
               metrics := ⟨filteredFiles.length, linesAnalyzed, 0⟩ }, true)

/-! ### The review lifecycle (review.service.ts, processReview) -/

/-- The review `status` column. -/
inductive ReviewStatus where
  | pending
  | in_progress
  | completed
  | failed
deriving DecidableEq, Repr

/-- The mutable columns of one review row that `processReview` touches.
Timestamps are reduced to presence (`completedAt`) and the elapsed
milliseconds to an opaque recorded value. -/
structure ReviewRow where
  status : ReviewStatus
  summary : Option String
  totalIssues : Nat
  criticalCount : Nat
  warningCount : Nat
  infoCount : Nat
  filesReviewed : Nat
  linesReviewed : Nat
  processingTimeMs : Option Nat
  errorMessage : Option String
  completedAt : Bool
deriving DecidableEq, Repr

/-- A freshly inserted review row: `status` is `'pending'` and every count
starts at its schema default `0`. -/
def newReviewRow : ReviewRow :=
  { status := .pending, summary := none, totalIssues := 0, criticalCount := 0
    warningCount := 0, infoCount := 0, filesReviewed := 0, linesReviewed := 0
    processingTimeMs := none, errorMessage := none, completedAt := false }

/-- The columns of one inserted issue row (the `INSERT INTO issues` of
review.service.ts lines 310-328). -/
structure IssueRec where
  filePath : String
  lineStart : Nat
  lineEnd : Nat
  severity : String
  category : String
  title : String
  description : String
  suggestion : Option String
  codeSnippet : Option String
  language : String
deriving DecidableEq, Repr

/-- The issue insert's column values: `line_end` falls back to `lineStart`
and `language` is re-detected from the file path. -/
def toIssueRec (issue : AnalyzedIssue) : IssueRec :=
  { filePath := issue.filePath
    lineStart := issue.lineStart
    lineEnd := issue.lineEnd.getD issue.lineStart
    severity := issue.severity
    category := issue.category
    title := issue.title
    description := issue.description
    suggestion := issue.suggestion
    codeSnippet := issue.codeSnippet
    language := detectLanguage issue.filePath }

/-- Committed database state for one review: its row and its visible issue
rows.  Uncommitted transaction work is never part of this state. -/
structure ReviewDB where
  review : ReviewRow
  issues : List IssueRec
deriving DecidableEq, Repr

/-- Per-severity in-memory count over the issue list being persisted
(review.service.ts lines 332-334). -/
def severityCount (issues : List AnalyzedIssue) (sev : String) : Nat :=
  (issues.filter (fun i => i.severity == sev)).length

/-- The transaction of review.service.ts lines 305-369: insert every issue,
then update the review row to `completed` with the summary, the counts
computed in memory from the same issue list, the metrics and the completion
timestamp; commit at the end.  `insertFailAt` simulates the k-th issue
insert throwing, `updateReviewOk` / `commitOk` the review update or the
`COMMIT` throwing; any failure rolls the transaction back, which the caller
sees as an unchanged database (`Except.error`). -/
def saveResults (db : ReviewDB) (result : AnalysisResult)
    (insertFailAt : Option Nat) (updateReviewOk commitOk : Bool) :
    Except Unit ReviewDB :=
  let failsInsert :=
    match insertFailAt with
    | some k => decide (k < result.issues.length)
    | none => false
  if failsInsert then .error ()
  else if !updateReviewOk then .error ()
  else if !commitOk then .error ()
  else
    .ok { review := { db.review with
            status := .completed
            summary := some result.summary
            totalIssues := result.issues.length
            criticalCount := severityCount result.issues "critical"
            warningCount := severityCount result.issues "warning"
            infoCount := severityCount result.issues "info"
            filesReviewed := result.metrics.filesAnalyzed
            linesReviewed := result.metrics.linesAnalyzed
            processingTimeMs := some result.metrics.processingTimeMs
            completedAt := true }
          issues := db.issues ++ result.issues.map toIssueRec }

/-- Environment of one `processReview` run: which database and collaborator
calls succeed, the changed files, the resolved settings and the AI
environment.  `preludeOk` covers the token fetch, both GitHub calls and the
settings lookup (lines 256-269), whose failures all land in the same top
level catch. -/
structure RunEnv where
  updateInProgressOk : Bool
  preludeOk : Bool
  files : List PRFile
  settings : ReviewSettings
  ai : AIEnv
  noFilesUpdateOk : Bool
  insertFailAt : Option Nat
  updateReviewOk : Bool
  commitOk : Bool
  markFailedOk : Bool

/-- Observable outcome of one `processReview` run: the committed database
state, the sequence of status values committed by the run (in order), and
whether the AI API was called. -/
structure RunResult where
  db : ReviewDB
  trace : List ReviewStatus
  aiCalled : Bool
deriving Repr

/-- The top-level catch of review.service.ts lines 372-387: mark the review
`failed` with the error message and elapsed time.  When this `UPDATE` itself
throws, the rejection is only logged (line 232) and no status is written. -/
def markFailed (env : RunEnv) (db : ReviewDB) (trace : List ReviewStatus)
    (aiCalled : Bool) : RunResult :=
  if env.markFailedOk then
    ⟨{ db with review := { db.review with
         status := .failed
         errorMessage := some "error"
         processingTimeMs := some 0 } },
     trace ++ [.failed], aiCalled⟩
  else ⟨db, trace, aiCalled⟩

/-- Lines 272-278 of review.service.ts: drop removed and patch-less files
and prepare the remaining ones for analysis. -/
def analysisFilesOf (files : List PRFile) : List FileAnalysis :=
  (files.filter (fun f => f.patch.isSome && f.status != "removed")).map
    (fun f =>
      ({ filename := f.filename, patch := f.patch.getD ""
         language := detectLanguage f.filename } : FileAnalysis))

/-- `processReview` from review.service.ts lines 239-388, started on a
review row the given database state: set `in_progress`, fetch, filter out
removed and patch-less files, short-circuit to `completed` when nothing is
analyzable, otherwise analyze and commit via the transaction; any thrown
error reaches the top-level catch, which marks the review `failed`. -/
def processReview (regexTest : String → String → Bool) (env : RunEnv)
    (db0 : ReviewDB) : RunResult :=
  if !env.updateInProgressOk then markFailed env db0 [] false
  else
    let db1 : ReviewDB :=
      { db0 with review := { db0.review with status := .in_progress } }
    let trace1 : List ReviewStatus := [.in_progress]
    if !env.preludeOk then markFailed env db1 trace1 false
    else
      let analysisFiles := analysisFilesOf env.files
      if analysisFiles.isEmpty then
        if env.noFilesUpdateOk then
          ⟨{ db1 with review := { db1.review with
               status := .completed
               summary := some "No analyzable files in this pull request"
               completedAt := true } },
           trace1 ++ [.completed], false⟩
        else markFailed env db1 trace1 false
      else
        match analyzeCode regexTest env.ai analysisFiles env.settings with
        | .error _ => markFailed env db1 trace1 true
        | .ok (result, aiCalled) =>
          match saveResults db1 result env.insertFailAt env.updateReviewOk
              env.commitOk with
          | .ok db2 => ⟨db2, trace1 ++ [.completed], aiCalled⟩
          | .error _ => markFailed env db1 trace1 aiCalled

/-! ### Concrete instances used in examples -/

/-- A sample finding with the given severity string. -/
def exIssue (sev : String) : AnalyzedIssue :=
  { filePath := "src/app.ts", lineStart := 1, lineEnd := none, severity := sev
    category := "bug", title := "t", description := "d", suggestion := none
    codeSnippet := none }

/-- Settings table holding a user blob with threshold `warning` and an empty
repository blob, as in the spec's cascade example. -/
def exStoreA : SettingsStore := fun u r k =>
  if u = some "u1" ∧ r = none ∧ k = "review" then
    some { severityThreshold := some "warning" }
  else if u = none ∧ r = some "r1" ∧ k = "review" then
    some ({} : SettingsBlob)
  else none

/-- The same table with a user+repository blob with threshold `critical`
added on top. -/
def exStoreB : SettingsStore := fun u r k =>
  if u = some "u1" ∧ r = some "r1" ∧ k = "review" then
    some { severityThreshold := some "critical" }
  else exStoreA u r k

/-- A stand-in hex HMAC producing a fixed 64-character digest, used to
instantiate the abstract HMAC parameter on concrete inputs. -/
def exHmac : String → String → String := fun _ _ =>
  "0123456789abcdef0123456789abcdef0123456789abcdef0123456789abcdef"

/-- Invariant of the two-invocation race on one (repository, PR, SHA)
triple: the unique constraint keeps at most one matching row, and any
finished invocation implies a matching row exists. -/
def raceInv (repo : String) (pr : Nat) (sha : String) (st : RaceState) :
    Prop :=
  countMatching st.db repo pr sha ≤ 1 ∧
  (∀ r, st.a = .finished r → 1 ≤ countMatching st.db repo pr sha) ∧
  (∀ r, st.b = .finished r → 1 ≤ countMatching st.db repo pr sha)

/-- Regular-expression stand-in for witnesses: the pattern `\.test\.`
matches exactly the file name `a.test.ts`. -/
def exRegexTest : String → String → Bool := fun p s =>
  p == "\\.test\\." && s == "a.test.ts"

/-- Run environment for the zero-files witness: a single changed file whose
name matches the default ignored pattern `\.test\.`; every database call
succeeds. -/
def exEnvNoFiles : RunEnv :=
  { updateInProgressOk := true, preludeOk := true
    files := [{ filename := "a.test.ts", status := "modified", patch := some "x" }]
    settings := DEFAULT_REVIEW_SETTINGS
    ai := { cached := none, aiOutcome := .error () }
    noFilesUpdateOk := true, insertFailAt := none
    updateReviewOk := true, commitOk := true, markFailedOk := true }

/-- Five findings used by the failing-commit witness. -/
def exFiveIssues : List AnalyzedIssue :=
  [exIssue "critical", exIssue "warning", exIssue "info", exIssue "warning",
   exIssue "info"]

/-- Run environment for the failing-commit witness: one analyzable file,
an AI answer with five findings, and the third issue insert throwing. -/
def exEnvInsertFail : RunEnv :=
  { updateInProgressOk := true, preludeOk := true
    files := [{ filename := "a.ts", status := "modified", patch := some "x" }]
    settings := DEFAULT_REVIEW_SETTINGS
    ai := { cached := none, aiOutcome := .ok ("summary", exFiveIssues) }
    noFilesUpdateOk := true, insertFailAt := some 2
    updateReviewOk := true, commitOk := true, markFailedOk := true }

/-! ## Theorems -/

/-! ### Severity filter helper lemmas -/

theorem jsIndexOf_ge_neg_one (xs : List String) (x : String) :
    -1 ≤ jsIndexOf xs x := by
  unfold jsIndexOf
  rcases h : xs.findIdx? (fun y => y == x) with _ | k
  · exact le_refl _
  · simp only []
    omega

theorem jsIndexOf_of_not_mem (xs : List String) (s : String) (h : s ∉ xs) :
    jsIndexOf xs s = -1 := by
  unfold jsIndexOf
  have hnone : xs.findIdx? (fun y => y == s) = none := by
    rw [List.findIdx?_eq_none_iff]
    intro x hx
    simp only [beq_eq_false_iff_ne, ne_eq]
    intro heq
    exact h (heq ▸ hx)
  rw [hnone]

theorem filterCond_eq_atOrAbove (s t : String) (hs : s ∈ severityOrder) :
    decide (jsIndexOf severityOrder s ≤ jsIndexOf severityOrder t) =
      atOrAboveThreshold s t := by
  have hsidx : ∃ i : Nat,
      severityOrder.findIdx? (fun y => y == s) = some i ∧
        jsIndexOf severityOrder s = (i : Int) := by
    fin_cases hs
    · exact ⟨0, by decide, by decide⟩
    · exact ⟨1, by decide, by decide⟩
    · exact ⟨2, by decide, by decide⟩
  obtain ⟨i, hfi, hji⟩ := hsidx
  rcases ht : severityOrder.findIdx? (fun y => y == t) with _ | j
  · have hjt : jsIndexOf severityOrder t = -1 := by
      unfold jsIndexOf; rw [ht]
    have hfalse : atOrAboveThreshold s t = false := by
      unfold atOrAboveThreshold; rw [hfi, ht]
    rw [hji, hjt, hfalse]
    exact decide_eq_false (by omega)
  · have hjt : jsIndexOf severityOrder t = (j : Int) := by
      unfold jsIndexOf; rw [ht]
    have hval : atOrAboveThreshold s t = decide (i ≤ j) := by
      unfold atOrAboveThreshold; rw [hfi, ht]
    rw [hji, hjt, hval]
    exact decide_eq_decide.mpr (by omega)

/-! ### Claim C4 -/

/-- C4: `getSettings` always succeeds and equals the built-in defaults
shallow-merged with, in increasing precedence, the user blob, then (when a
repository is given) the repository blob, then the user+repository blob,
skipping absent layers; on the spec's example stores it resolves the
threshold to `warning`, and to `critical` once a user+repository blob is
added. -/
theorem settings_cascade_resolution :
    (∀ (store : SettingsStore) (u : String) (r : Option String),
      getSettings store u r = cascadeResolve store u r) ∧
    (getSettings exStoreA "u1" (some "r1")).severityThreshold = "warning" ∧
    (getSettings exStoreB "u1" (some "r1")).severityThreshold = "critical" := by
  refine ⟨?_, by decide, by decide⟩
  intro store u r
  cases r with
  | none =>
    simp only [getSettings, cascadeResolve, settingsLayers, getSetting]
    cases store (some u) none "review" <;> simp
  | some repoId =>
    simp only [getSettings, cascadeResolve, settingsLayers, getSetting]
    cases store (some u) none "review" <;>
      cases store none (some repoId) "review" <;>
        cases store (some u) (some repoId) "review" <;> simp

/-! ### Claim C5 -/

/-- C5 counterexample: with threshold `warning` (a configured threshold), a
finding whose severity string is `bogus` is admitted by
`filterIssuesBySeverity` although it is not at or above the threshold in the
fixed order, so the filter does not admit exactly the at-or-above findings. -/
theorem severity_filter_counterexample :
    "warning" ∈ severityOrder ∧
    filterIssuesBySeverity [exIssue "bogus"] "warning" ≠
      ([exIssue "bogus"].filter
        (fun i => atOrAboveThreshold i.severity "warning")) := by
  decide

/-- C5 amended: for findings whose severity strings are all recognized
(critical, warning or info), `filterIssuesBySeverity` admits exactly those at
or above the threshold in the fixed total order critical > warning > info
(findings with unrecognized severity strings, by contrast, always pass); on
the spec's example, issues [critical, warning, info] with threshold `warning`
yield exactly [critical, warning]. -/
theorem severity_filter_amended (issues : List AnalyzedIssue) (t : String)
    (h : ∀ i ∈ issues, i.severity ∈ severityOrder) :
    filterIssuesBySeverity issues t =
      issues.filter (fun i => atOrAboveThreshold i.severity t) ∧
    filterIssuesBySeverity [exIssue "critical", exIssue "warning", exIssue "info"]
        "warning" = [exIssue "critical", exIssue "warning"] := by
  constructor
  · simp only [filterIssuesBySeverity]
    exact List.filter_congr
      (fun i hi => filterCond_eq_atOrAbove i.severity t (h i hi))
  · decide

/-- C5 witness: the amended theorem applied to the spec's example list. -/
theorem severity_filter_amended_witness :
    (∀ i ∈ [exIssue "critical", exIssue "warning", exIssue "info"],
      i.severity ∈ severityOrder) ∧
    (filterIssuesBySeverity
        [exIssue "critical", exIssue "warning", exIssue "info"] "warning" =
      [exIssue "critical", exIssue "warning", exIssue "info"].filter
        (fun i => atOrAboveThreshold i.severity "warning")) :=
  ⟨by decide,
    (severity_filter_amended
      [exIssue "critical", exIssue "warning", exIssue "info"] "warning"
      (by decide)).1⟩

/-! ### Claim C10 -/

/-- C10: `filterIssuesBySeverity` retains every issue whose severity string
is not one of critical, warning, info — its `indexOf` is `-1`, which is at
most every threshold index — so unrecognized severities always pass the
filter and reach persistence. -/
theorem unrecognized_severity_passes_filter (issues : List AnalyzedIssue)
    (t : String) (i : AnalyzedIssue) (hi : i ∈ issues)
    (hs : i.severity ∉ severityOrder) :
    i ∈ filterIssuesBySeverity issues t := by
  simp only [filterIssuesBySeverity]
  refine List.mem_filter.mpr ⟨hi, ?_⟩
  rw [jsIndexOf_of_not_mem _ _ hs]
  exact decide_eq_true (jsIndexOf_ge_neg_one _ _)

/-- C10 witness: a `bogus`-severity finding passes the filter at threshold
`critical`. -/
theorem unrecognized_severity_passes_filter_witness :
    (exIssue "bogus" ∈ [exIssue "bogus"] ∧
      (exIssue "bogus").severity ∉ severityOrder) ∧
    exIssue "bogus" ∈ filterIssuesBySeverity [exIssue "bogus"] "critical" :=
  ⟨⟨by decide, by decide⟩,
    unrecognized_severity_passes_filter [exIssue "bogus"] "critical"
      (exIssue "bogus") (by decide) (by decide)⟩

/-! ### Cache helper lemmas -/

theorem assocGet_assocSet_self {α : Type} (m : List (String × α)) (k : String)
    (v : α) : assocGet (assocSet m k v) k = some v := by
  unfold assocGet assocSet
  have h1 : (m.filter (fun kv => decide (kv.1 ≠ k))).find?
      (fun kv => decide (kv.1 = k)) = none := by
    rw [List.find?_eq_none]
    intro x hx
    have hmem := List.of_mem_filter hx
    simp only [decide_not, Bool.not_eq_true', decide_eq_false_iff_not] at hmem
    simp only [decide_eq_true_eq]
    exact hmem
  rw [List.find?_append, h1]
  simp

/-! ### Claim C7 -/

/-- C7: cache operations are best-effort and, when degraded, served by the
in-memory fallback.  With Redis enabled, a thrown backend read returns `null`
(a miss, state unchanged) and a thrown backend write is swallowed (state
unchanged); the operations are total functions, so no exception ever reaches
the caller.  With Redis unavailable, a `get` after a `set` of the same key
within the TTL returns the stored value through the fallback map, and the
periodic sweep keeps exactly the unexpired entries. -/
theorem cache_best_effort_and_fallback (st : CacheState) (key value : String)
    (ttl now now2 : Nat) (rs : BackendResult Unit)
    (rg : BackendResult (Option String)) :
    (st.redisEnabled = true → cacheGet st key now .err = (none, st)) ∧
    (st.redisEnabled = true → cacheSet st key value (some ttl) now .err = st) ∧
    (st.redisEnabled = false → now2 ≤ now + ttl * 1000 →
      (cacheGet (cacheSet st key value (some ttl) now rs) key now2 rg).1 =
        some value) ∧
    (∀ (k : String) (entry : MemEntry),
      (k, entry) ∈ (cacheSweep st now).memoryCache ↔
        ((k, entry) ∈ st.memoryCache ∧
          ∀ e, entry.expiry = some e → ¬ e < now)) := by
  refine ⟨?_, ?_, ?_, ?_⟩
  · intro h; simp [cacheGet, h]
  · intro h; simp [cacheSet, h]
  · intro h httl
    simp only [cacheSet, cacheGet, h, Bool.false_eq_true, if_false,
      Option.map_some', assocGet_assocSet_self]
    rw [if_neg (by omega)]
  · intro k entry
    simp only [cacheSweep, List.mem_filter]
    constructor
    · rintro ⟨hmem, hcond⟩
      refine ⟨hmem, ?_⟩
      intro e he
      rw [he] at hcond
      simpa using hcond
    · rintro ⟨hmem, hcond⟩
      refine ⟨hmem, ?_⟩
      cases he : entry.expiry with
      | none => simp
      | some e => simpa using hcond e he

/-- C7 witness: with Redis disabled, a set-then-get of key `k` within the
TTL returns the stored value, and backend errors with Redis enabled change
nothing. -/
theorem cache_best_effort_and_fallback_witness :
    (CacheState.mk false [] []).redisEnabled = false ∧ (5 : Nat) ≤ 0 + 60 * 1000 ∧
    (cacheGet (cacheSet ⟨false, [], []⟩ "k" "v" (some 60) 0 .err) "k" 5 .err).1 =
      some "v" :=
  ⟨by decide, by decide,
    ((cache_best_effort_and_fallback ⟨false, [], []⟩ "k" "v" 60 0 5 .err
      .err).2.2.1 (by decide) (by decide))⟩

/-! ### Claim C6 -/

/-- C6 counterexample: with the secret configured and a signature that is
not `sha256=` followed by the HMAC digest but has a different byte length,
the handler rejects with the 500 produced for the thrown `timingSafeEqual`
length error, not with a 401 authentication error. -/
theorem webhook_signature_counterexample :
    (some "sha256=deadbeef" : Option String) ≠
      some ("sha256=" ++ exHmac "s" "p") ∧
    webhookGithubPost exHmac (some "s") "p" (some "sha256=deadbeef")
        ⟨"pull_request", "opened", 1, "o/r", "1"⟩ none =
      ⟨.internalError, false, false⟩ ∧
    WebhookResponse.internalError ≠ WebhookResponse.authError := by
  exact ⟨by decide, by decide, by decide⟩

/-- C6 amended: a missing or JS-falsy secret or signature yields a 401
before any processing; a signature of the same byte length as the expected
`sha256=`-prefixed digest that differs from it yields a 401 before any
processing; a signature of a different byte length makes the comparison
throw, rejecting the request with a 500, still before any processing; a
request whose signature equals the expected digest is never rejected for
authentication. -/
theorem webhook_signature_amended (hmacHex : String → String → String)
    (secret payload sig : String) (anySecret anySig : Option String)
    (d : WebhookDelivery) (repoLookup : Option WebhookRepo) :
    (webhookGithubPost hmacHex none payload anySig d repoLookup =
      ⟨.authError, false, false⟩) ∧
    (webhookGithubPost hmacHex anySecret payload none d repoLookup =
      ⟨.authError, false, false⟩) ∧
    (secret = "" →
      webhookGithubPost hmacHex (some secret) payload (some sig) d repoLookup =
        ⟨.authError, false, false⟩) ∧
    (sig = "" →
      webhookGithubPost hmacHex (some secret) payload (some sig) d repoLookup =
        ⟨.authError, false, false⟩) ∧
    (secret ≠ "" → sig ≠ "" →
      ("sha256=" ++ hmacHex secret payload).utf8ByteSize = sig.utf8ByteSize →
      sig ≠ "sha256=" ++ hmacHex secret payload →
      webhookGithubPost hmacHex (some secret) payload (some sig) d repoLookup =
        ⟨.authError, false, false⟩) ∧
    (secret ≠ "" → sig ≠ "" →
      ("sha256=" ++ hmacHex secret payload).utf8ByteSize ≠ sig.utf8ByteSize →
      webhookGithubPost hmacHex (some secret) payload (some sig) d repoLookup =
        ⟨.internalError, false, false⟩) ∧
    (secret ≠ "" → sig = "sha256=" ++ hmacHex secret payload →
      (webhookGithubPost hmacHex (some secret) payload (some sig) d
          repoLookup).response = .success) := by
  refine ⟨?_, ?_, ?_, ?_, ?_, ?_, ?_⟩
  · simp [webhookGithubPost, verifyWebhookSignature]
  · cases anySecret <;> simp [webhookGithubPost, verifyWebhookSignature]
  · intro h; simp [webhookGithubPost, verifyWebhookSignature, h]
  · intro h
    by_cases hs : secret = "" <;>
      simp [webhookGithubPost, verifyWebhookSignature, h, hs]
  · intro h1 h2 hlen hne
    have hd : ("sha256=" ++ hmacHex secret payload) ≠ sig := fun h => hne h.symm
    simp [webhookGithubPost, verifyWebhookSignature, h1, h2, hlen, hd]
  · intro h1 h2 hlen
    simp [webhookGithubPost, verifyWebhookSignature, h1, h2, hlen]
  · intro h1 h2
    have hs : sig ≠ "" := by
      rw [h2]
      intro h
      have hlen2 := congrArg String.length h
      simp only [String.length_append] at hlen2
      have h7 : ("sha256=" : String).length = 7 := by decide
      have h0 : ("" : String).length = 0 := by decide
      omega
    subst h2
    by_cases he : d.event = "pull_request" <;>
      simp [webhookGithubPost, verifyWebhookSignature, h1, hs, he]

/-- C6 witness: the amended theorem at a concrete equal-length mismatch. -/
theorem webhook_signature_amended_witness :
    (("s" : String) ≠ "" ∧ ("sha256=deadbeef" : String) ≠ "" ∧
      ("sha256=" ++ exHmac "s" "p").utf8ByteSize ≠
        ("sha256=deadbeef" : String).utf8ByteSize) ∧
    webhookGithubPost exHmac (some "s") "p" (some "sha256=deadbeef")
        ⟨"pull_request", "opened", 1, "o/r", "1"⟩ none =
      ⟨.internalError, false, false⟩ :=
  ⟨⟨by decide, by decide, by decide⟩,
    (webhook_signature_amended exHmac "s" "p" "sha256=deadbeef" none none
        ⟨"pull_request", "opened", 1, "o/r", "1"⟩ none).2.2.2.2.2.1
      (by decide) (by decide) (by decide)⟩

/-! ### Claim C9 -/

/-- C9 counterexample: a delivery that passes signature verification but
carries a `ping` event stores no WebhookEvent record at all, so the append
is not unconditional. -/
theorem webhook_event_log_counterexample :
    verifyWebhookSignature exHmac (some "s") "p"
        (some ("sha256=" ++ exHmac "s" "p")) = .ok true ∧
    (webhookGithubPost exHmac (some "s") "p"
        (some ("sha256=" ++ exHmac "s" "p"))
        ⟨"ping", "", 1, "o/r", "1"⟩ none).eventStored = false := by
  exact ⟨by rfl, by decide⟩

/-- C9 amended: for a delivery that passes signature verification, a
WebhookEvent record is appended exactly when the event is `pull_request`,
the action is one of opened, synchronize, reopened, the repository is
connected and its auto-review flag is on — the same gate that triggers the
review — and never otherwise. -/
theorem webhook_event_log_amended (hmacHex : String → String → String)
    (secret : Option String) (payload : String) (sig : Option String)
    (d : WebhookDelivery) (repoLookup : Option WebhookRepo)
    (hv : verifyWebhookSignature hmacHex secret payload sig = .ok true) :
    (webhookGithubPost hmacHex secret payload sig d repoLookup).response =
      .success ∧
    ((webhookGithubPost hmacHex secret payload sig d repoLookup).eventStored =
        true ↔
      (d.event = "pull_request" ∧
        d.action ∈ ["opened", "synchronize", "reopened"] ∧
        ∃ repo, repoLookup = some repo ∧ repo.autoReview = true)) ∧
    (webhookGithubPost hmacHex secret payload sig d repoLookup).reviewTriggered =
      (webhookGithubPost hmacHex secret payload sig d repoLookup).eventStored := by
  simp only [webhookGithubPost, hv]
  by_cases he : d.event = "pull_request"
  · simp only [he, if_pos rfl]
    simp only [handlePullRequestEvent]
    by_cases ha : ["opened", "synchronize", "reopened"].contains d.action
    · cases repoLookup with
      | none => simp [ha]
      | some repo =>
        by_cases har : repo.autoReview <;>
          simp_all [List.elem_iff]
    · have ha2 : d.action ∉ (["opened", "synchronize", "reopened"] : List String) := by
        simpa [List.elem_iff] using ha
      simp [ha, ha2]
  · simp [he]

/-- C9 witness: a verified opened-PR delivery on a connected auto-review
repository stores the event and triggers the review. -/
theorem webhook_event_log_amended_witness :
    verifyWebhookSignature exHmac (some "s") "p"
        (some ("sha256=" ++ exHmac "s" "p")) = .ok true ∧
    ((webhookGithubPost exHmac (some "s") "p"
        (some ("sha256=" ++ exHmac "s" "p"))
        ⟨"pull_request", "opened", 1, "o/r", "1"⟩
        (some ⟨"r1", "u1", true⟩)).eventStored = true ↔
      (("pull_request" : String) = "pull_request" ∧
        ("opened" : String) ∈ ["opened", "synchronize", "reopened"] ∧
        ∃ repo, (some (⟨"r1", "u1", true⟩ : WebhookRepo)) = some repo ∧
          repo.autoReview = true)) :=
  ⟨by rfl,
    (webhook_event_log_amended exHmac (some "s") "p"
      (some ("sha256=" ++ exHmac "s" "p"))
      ⟨"pull_request", "opened", 1, "o/r", "1"⟩
      (some ⟨"r1", "u1", true⟩) (by rfl)).2.1⟩

/-! ### Race-model helper lemmas -/

theorem countMatching_pos_of_findExisting_some (db : List ReviewRec)
    (repo : String) (pr : Nat) (sha : String) (row : ReviewRec)
    (h : findExisting db repo pr sha = some row) :
    1 ≤ countMatching db repo pr sha := by
  unfold findExisting at h
  unfold countMatching
  have hmem := List.mem_of_find?_eq_some h
  have hp := List.find?_some h
  have hfm : row ∈ db.filter (fun r =>
      r.repositoryId == repo && r.prNumber == pr && r.headSha == sha) :=
    List.mem_filter.mpr ⟨hmem, hp⟩
  have hpos := List.length_pos.mpr (List.ne_nil_of_mem hfm)
  omega

theorem countMatching_zero_of_findExisting_none (db : List ReviewRec)
    (repo : String) (pr : Nat) (sha : String)
    (h : findExisting db repo pr sha = none) :
    countMatching db repo pr sha = 0 := by
  unfold findExisting at h
  unfold countMatching
  rw [List.find?_eq_none] at h
  rw [List.filter_eq_nil_iff.mpr h]
  rfl

theorem findExisting_none_of_countMatching_zero (db : List ReviewRec)
    (repo : String) (pr : Nat) (sha : String)
    (h : countMatching db repo pr sha = 0) :
    findExisting db repo pr sha = none := by
  rcases hf : findExisting db repo pr sha with _ | row
  · rfl
  · have := countMatching_pos_of_findExisting_some db repo pr sha row hf
    omega

theorem countMatching_append_self (db : List ReviewRec) (repo : String)
    (pr : Nat) (sha : String) (id : Nat) :
    countMatching (db ++ [⟨id, repo, pr, sha⟩]) repo pr sha =
      countMatching db repo pr sha + 1 := by
  unfold countMatching
  rw [List.filter_append]
  simp

theorem raceStep_preserves_inv (repo : String) (pr : Nat) (sha : String)
    (idA idB : Nat) (move : Bool) (st : RaceState)
    (h : raceInv repo pr sha st) :
    raceInv repo pr sha (raceStep repo pr sha idA idB st move) := by
  obtain ⟨h1, h2, h3⟩ := h
  cases move
  · cases hb : st.b with
    | ready =>
      rcases hf : findExisting st.db repo pr sha with _ | row <;>
        simp only [raceStep, callStep, hb, hf, Bool.false_eq_true, if_false] <;>
        refine ⟨h1, fun r hr => h2 r hr, ?_⟩
      · intro r hr; exact absurd hr (by simp)
      · intro r _; exact countMatching_pos_of_findExisting_some _ _ _ _ _ hf
    | selected =>
      rcases hf : findExisting st.db repo pr sha with _ | row
      · have hz := countMatching_zero_of_findExisting_none _ _ _ _ hf
        have hc := countMatching_append_self st.db repo pr sha idB
        simp only [raceStep, callStep, hb, insertUnique, hf, Option.isSome_none,
          Bool.false_eq_true, if_false]
        unfold raceInv
        dsimp only
        exact ⟨by omega, fun r _ => by omega, fun r _ => by omega⟩
      · simp only [raceStep, callStep, hb, insertUnique, hf, Option.isSome_some,
          if_true, Bool.false_eq_true, if_false]
        exact ⟨h1, fun r hr => h2 r hr,
          fun r _ => countMatching_pos_of_findExisting_some _ _ _ _ _ hf⟩
    | finished res =>
      simp only [raceStep, callStep, hb, Bool.false_eq_true, if_false]
      exact ⟨h1, fun r hr => h2 r hr, fun r _ => h3 res hb⟩
  · cases ha : st.a with
    | ready =>
      rcases hf : findExisting st.db repo pr sha with _ | row <;>
        simp only [raceStep, callStep, ha, hf, if_true] <;>
        refine ⟨h1, ?_, fun r hr => h3 r hr⟩
      · intro r hr; exact absurd hr (by simp)
      · intro r _; exact countMatching_pos_of_findExisting_some _ _ _ _ _ hf
    | selected =>
      rcases hf : findExisting st.db repo pr sha with _ | row
      · have hz := countMatching_zero_of_findExisting_none _ _ _ _ hf
        have hc := countMatching_append_self st.db repo pr sha idA
        simp only [raceStep, callStep, ha, insertUnique, hf, Option.isSome_none,
          Bool.false_eq_true, if_false, if_true]
        unfold raceInv
        dsimp only
        exact ⟨by omega, fun r _ => by omega, fun r _ => by omega⟩
      · simp only [raceStep, callStep, ha, insertUnique, hf, Option.isSome_some,
          if_true]
        exact ⟨h1, fun r _ => countMatching_pos_of_findExisting_some _ _ _ _ _ hf,
          fun r hr => h3 r hr⟩
    | finished res =>
      simp only [raceStep, callStep, ha, if_true]
      exact ⟨h1, fun r _ => h2 res ha, fun r hr => h3 r hr⟩

theorem runSchedule_preserves_inv (repo : String) (pr : Nat) (sha : String)
    (idA idB : Nat) (moves : List Bool) (st : RaceState)
    (h : raceInv repo pr sha st) :
    raceInv repo pr sha (runSchedule repo pr sha idA idB moves st) := by
  induction moves generalizing st with
  | nil => exact h
  | cons m ms ih =>
    exact ih _ (raceStep_preserves_inv repo pr sha idA idB m st h)

/-! ### Claim C1 -/

/-- C1 counterexample: under the interleaving where both invocations run
their existence check before either insert, the loser's insert hits the
unique constraint and the invocation ends in an error instead of returning
the existing row — even though only one row is persisted. -/
theorem duplicate_review_counterexample :
    (runSchedule "r1" 42 "abc123" 1 2 [true, false, true, false]
        ⟨[], .ready, .ready⟩).b = .finished (.error ()) ∧
    (runSchedule "r1" 42 "abc123" 1 2 [true, false, true, false]
        ⟨[], .ready, .ready⟩).db = [⟨1, "r1", 42, "abc123"⟩] := by
  exact ⟨rfl, rfl⟩

/-- C1 amended: for two `createAndRunReview` invocations with the same
(repository, prNumber, headSha), under every interleaving at most one review
row for the triple is ever persisted and, once either invocation completes,
exactly one row exists (the storage-level unique constraint is what prevents
the duplicate); when the calls run sequentially the second invocation finds
the existing row and returns it unchanged with the same id; but under the
check-then-act race the losing invocation terminates with the unique-
violation error instead of returning the existing row. -/
theorem duplicate_review_amended (repo : String) (pr : Nat) (sha : String)
    (idA idB : Nat) (moves : List Bool) (db0 : List ReviewRec)
    (h0 : countMatching db0 repo pr sha = 0) :
    countMatching
        (runSchedule repo pr sha idA idB moves ⟨db0, .ready, .ready⟩).db
        repo pr sha ≤ 1 ∧
    (∀ r, (runSchedule repo pr sha idA idB moves ⟨db0, .ready, .ready⟩).a =
        .finished r →
      countMatching
        (runSchedule repo pr sha idA idB moves ⟨db0, .ready, .ready⟩).db
        repo pr sha = 1) ∧
    (∀ r, (runSchedule repo pr sha idA idB moves ⟨db0, .ready, .ready⟩).b =
        .finished r →
      countMatching
        (runSchedule repo pr sha idA idB moves ⟨db0, .ready, .ready⟩).db
        repo pr sha = 1) ∧
    (runSchedule repo pr sha idA idB [true, true, false]
        ⟨db0, .ready, .ready⟩).b = .finished (.ok ⟨idA, repo, pr, sha⟩) := by
  have hinv : raceInv repo pr sha (⟨db0, .ready, .ready⟩ : RaceState) := by
    refine ⟨?_, ?_, ?_⟩
    · dsimp only; omega
    · intro r hr; exact absurd hr (by simp)
    · intro r hr; exact absurd hr (by simp)
  have hfinal := runSchedule_preserves_inv repo pr sha idA idB moves _ hinv
  obtain ⟨g1, g2, g3⟩ := hfinal
  refine ⟨g1, fun r hr => by have := g2 r hr; omega,
    fun r hr => by have := g3 r hr; omega, ?_⟩
  have hf0 : findExisting db0 repo pr sha = none :=
    findExisting_none_of_countMatching_zero db0 repo pr sha h0
  have hf1 : findExisting (db0 ++ [⟨idA, repo, pr, sha⟩]) repo pr sha =
      some ⟨idA, repo, pr, sha⟩ := by
    unfold findExisting at hf0 ⊢
    rw [List.find?_append, hf0]
    simp
  simp only [runSchedule, List.foldl, raceStep, callStep, if_true, hf0,
    insertUnique, Option.isSome_none, Bool.false_eq_true, if_false, hf1]

/-- C1 witness: the amended theorem starting from an empty table. -/
theorem duplicate_review_amended_witness :
    countMatching [] "r1" 42 "abc123" = 0 ∧
    countMatching
        (runSchedule "r1" 42 "abc123" 1 2 [true, false, true, false]
          ⟨[], .ready, .ready⟩).db "r1" 42 "abc123" ≤ 1 :=
  ⟨by decide,
    (duplicate_review_amended "r1" 42 "abc123" 1 2 [true, false, true, false]
      [] (by decide)).1⟩

/-! ### Claim C2 -/

theorem processReview_trace_cases (regexTest : String → String → Bool)
    (env : RunEnv) (db0 : ReviewDB) :
    (processReview regexTest env db0).trace ∈
      ([[], [ReviewStatus.failed], [ReviewStatus.in_progress],
        [ReviewStatus.in_progress, ReviewStatus.completed],
        [ReviewStatus.in_progress, ReviewStatus.failed]] :
        List (List ReviewStatus)) := by
  obtain ⟨u, p, files, settings, ai, nf, insFail, upOk, comOk, mfOk⟩ := env
  cases u
  · cases mfOk <;> simp [processReview, markFailed]
  · cases p
    · cases mfOk <;> simp [processReview, markFailed]
    · by_cases hemp : (analysisFilesOf files).isEmpty
      · cases nf
        · cases mfOk <;> simp [processReview, markFailed, hemp]
        · simp [processReview, markFailed, hemp]
      · rcases hai : analyzeCode regexTest ai (analysisFilesOf files) settings
          with e | ⟨result, aiCalled⟩
        · cases mfOk <;> simp [processReview, markFailed, hemp, hai]
        · rcases hsv : saveResults
              { db0 with review := { db0.review with status := .in_progress } }
              result insFail upOk comOk with e2 | db2
          · cases mfOk <;> simp [processReview, markFailed, hemp, hai, hsv]
          · simp [processReview, markFailed, hemp, hai, hsv]

/-- C2: starting from a freshly created `pending` row, in every run
environment the observed status sequence of a review is a subsequence of
pending, in_progress, completed or of pending, in_progress, failed — in
particular no update ever leaves a terminal state. -/
theorem review_status_monotonic (regexTest : String → String → Bool)
    (env : RunEnv) :
    List.Sublist
        (ReviewStatus.pending ::
          (processReview regexTest env ⟨newReviewRow, []⟩).trace)
        [ReviewStatus.pending, ReviewStatus.in_progress,
          ReviewStatus.completed] ∨
    List.Sublist
        (ReviewStatus.pending ::
          (processReview regexTest env ⟨newReviewRow, []⟩).trace)
        [ReviewStatus.pending, ReviewStatus.in_progress,
          ReviewStatus.failed] := by
  have h := processReview_trace_cases regexTest env ⟨newReviewRow, []⟩
  simp only [List.mem_cons, List.not_mem_nil, or_false] at h
  rcases h with h | h | h | h | h <;> rw [h]
  · left; decide
  · right; decide
  · left; decide
  · left; decide
  · right; decide

/-! ### Claim C3 -/

/-- C3: the commit at the end of `processReview` is atomic.  On success all
issues become visible together with a `completed` review row whose counts
are computed in memory from the very list being inserted (total is its
length, per-severity counts its filtered lengths).  If any issue insert,
the review update or the commit fails, the transaction yields no state
change at all (rollback), so zero issues are visible and the row is still
`in_progress`; the caller then marks the review `failed`, ending with zero
visible issues. -/
theorem transactional_commit (db : ReviewDB) (result : AnalysisResult) :
    saveResults db result none true true =
      .ok { review := { db.review with
              status := .completed
              summary := some result.summary
              totalIssues := result.issues.length
              criticalCount := severityCount result.issues "critical"
              warningCount := severityCount result.issues "warning"
              infoCount := severityCount result.issues "info"
              filesReviewed := result.metrics.filesAnalyzed
              linesReviewed := result.metrics.linesAnalyzed
              processingTimeMs := some result.metrics.processingTimeMs
              completedAt := true }
            issues := db.issues ++ result.issues.map toIssueRec } ∧
    (∀ (k : Nat) (upOk comOk : Bool), k < result.issues.length →
      saveResults db result (some k) upOk comOk = .error ()) ∧
    (∀ (regexTest : String → String → Bool) (env : RunEnv)
        (result2 : AnalysisResult) (aiCalled : Bool) (k : Nat),
      env.updateInProgressOk = true → env.preludeOk = true →
      env.markFailedOk = true →
      (analysisFilesOf env.files).isEmpty = false →
      analyzeCode regexTest env.ai (analysisFilesOf env.files) env.settings =
        .ok (result2, aiCalled) →
      env.insertFailAt = some k → k < result2.issues.length →
      (processReview regexTest env ⟨newReviewRow, []⟩).db.issues = [] ∧
        (processReview regexTest env ⟨newReviewRow, []⟩).db.review.status =
          .failed ∧
        (processReview regexTest env ⟨newReviewRow, []⟩).trace =
          [ReviewStatus.in_progress, ReviewStatus.failed]) := by
  refine ⟨by simp [saveResults], ?_, ?_⟩
  · intro k upOk comOk hk
    simp [saveResults, hk]
  · intro regexTest env result2 aiCalled k hup hpre hmf hne hai hins hk
    have hsv : ∀ dbx : ReviewDB,
        saveResults dbx result2 env.insertFailAt env.updateReviewOk
          env.commitOk = .error () := by
      intro dbx
      rw [hins]
      simp [saveResults, hk]
    simp [processReview, markFailed, hup, hpre, hne, hai, hsv, hmf]

/-- C3 witness: five findings with the third insert failing produce a
`failed` review with zero visible issues. -/
theorem transactional_commit_witness :
    ((2 : Nat) < exFiveIssues.length ∧
      exEnvInsertFail.updateInProgressOk = true) ∧
    saveResults ⟨newReviewRow, []⟩
        { summary := "summary", issues := exFiveIssues, metrics := ⟨1, 2, 0⟩ }
        (some 2) true true = .error () :=
  ⟨⟨by decide, by decide⟩,
    (transactional_commit ⟨newReviewRow, []⟩
      { summary := "summary", issues := exFiveIssues, metrics := ⟨1, 2, 0⟩ }).2.1
      2 true true (by decide)⟩

/-! ### Claim C8 -/

/-- C8: when every file filter together leaves zero files — including the
case where the only changed file matches an ignored pattern — the run ends
with a `completed` review (never `failed`), zero visible issues and zero
counts, one of the two fixed no-analyzable-files summaries, and no AI call. -/
theorem no_files_short_circuit (regexTest : String → String → Bool)
    (env : RunEnv)
    (hup : env.updateInProgressOk = true) (hpre : env.preludeOk = true)
    (hnf : env.noFilesUpdateOk = true) (hupd : env.updateReviewOk = true)
    (hcom : env.commitOk = true)
    (hzero : filterFiles regexTest (analysisFilesOf env.files) env.settings =
      []) :
    ((processReview regexTest env ⟨newReviewRow, []⟩).db.review.status =
      .completed) ∧
    (processReview regexTest env ⟨newReviewRow, []⟩).db.issues = [] ∧
    (processReview regexTest env ⟨newReviewRow, []⟩).aiCalled = false ∧
    (processReview regexTest env ⟨newReviewRow, []⟩).db.review.totalIssues = 0 ∧
    (processReview regexTest env ⟨newReviewRow, []⟩).db.review.criticalCount = 0 ∧
    (processReview regexTest env ⟨newReviewRow, []⟩).db.review.warningCount = 0 ∧
    (processReview regexTest env ⟨newReviewRow, []⟩).db.review.infoCount = 0 ∧
    ((processReview regexTest env ⟨newReviewRow, []⟩).db.review.summary =
        some "No analyzable files in this pull request" ∨
      (processReview regexTest env ⟨newReviewRow, []⟩).db.review.summary =
        some "No files to analyze after applying filters") ∧
    (processReview regexTest env ⟨newReviewRow, []⟩).trace =
      [ReviewStatus.in_progress, ReviewStatus.completed] := by
  by_cases hempty : (analysisFilesOf env.files).isEmpty
  · simp [processReview, hup, hpre, hempty, hnf, newReviewRow]
  · have hana : analyzeCode regexTest env.ai (analysisFilesOf env.files)
        env.settings =
        .ok ({ summary := "No files to analyze after applying filters"
               issues := [], metrics := ⟨0, 0, 0⟩ }, false) := by
      simp [analyzeCode, hzero]
    have hsv : saveResults
        ⟨⟨.in_progress, none, 0, 0, 0, 0, 0, 0, none, none, false⟩, []⟩
        { summary := "No files to analyze after applying filters"
          issues := [], metrics := ⟨0, 0, 0⟩ }
        env.insertFailAt env.updateReviewOk env.commitOk =
        .ok ⟨⟨.completed, some "No files to analyze after applying filters",
              0, 0, 0, 0, 0, 0, some 0, none, true⟩, []⟩ := by
      cases hins : env.insertFailAt <;>
        simp [saveResults, hupd, hcom, severityCount]
    simp only [Bool.not_eq_true] at hempty
    simp [processReview, hup, hpre, hempty, hana, hsv, newReviewRow]

/-- C8 witness: a PR whose only changed file `a.test.ts` matches the default
ignored pattern yields a completed review with the fixed summary and no AI
call. -/
theorem no_files_short_circuit_witness :
    (exEnvNoFiles.updateInProgressOk = true ∧
      filterFiles exRegexTest (analysisFilesOf exEnvNoFiles.files)
        exEnvNoFiles.settings = []) ∧
    ((processReview exRegexTest exEnvNoFiles ⟨newReviewRow, []⟩).db.review.status =
      .completed) ∧
    (processReview exRegexTest exEnvNoFiles ⟨newReviewRow, []⟩).db.issues = [] ∧
    (processReview exRegexTest exEnvNoFiles ⟨newReviewRow, []⟩).aiCalled =
      false :=
  ⟨⟨by decide, by decide⟩,
    ((no_files_short_circuit exRegexTest exEnvNoFiles (by decide) (by decide)
        (by decide) (by decide) (by decide) (by decide)).1),
    ((no_files_short_circuit exRegexTest exEnvNoFiles (by decide) (by decide)
        (by decide) (by decide) (by decide) (by decide)).2.1),
    ((no_files_short_circuit exRegexTest exEnvNoFiles (by decide) (by decide)
        (by decide) (by decide) (by decide) (by decide)).2.2.1)⟩

end CodeReviewAssistant
